import Mathlib

/-!
# Verification of the pki-cms repository

A shallow embedding of the PKI/CMS signing utilities (`src/lib/pki-utils.ts`),
the HSM signer-info construction (`src/lib/hsm-utils.ts`) and the two
HSM socket client variants (TCP and Unix-socket-path), together with proofs
of the behavioural claims made by the specification.

Strings are modelled as `List Char`, byte buffers as `List Nat` (each entry
below 256 where the JavaScript runtime guarantees it).  The external ASN.1 and
crypto primitives (pkijs, asn1js, WebCrypto) are out of scope per the spec and
are modelled as oracle-style function parameters; everything the repository
itself implements (framing, base64, PEM armor, regex splitting, control flow,
error wrapping) is translated directly from the source.
-/

/-! ## JavaScript base64 (btoa / atob) -/

/-- The standard base64 alphabet used by `btoa` and `atob`. -/
def b64Alphabet : List Char :=
  "ABCDEFGHIJKLMNOPQRSTUVWXYZabcdefghijklmnopqrstuvwxyz0123456789+/".data

/-- Sextet value to base64 character. -/
def b64enc (i : Nat) : Char := b64Alphabet.getD i 'A'

/-- Base64 character back to its sextet value; `none` for characters outside
the alphabet (the `InvalidCharacterError` case of `atob`). -/
def b64dec (c : Char) : Option Nat := b64Alphabet.findIdx? (fun x => x == c)

/-- `btoa` on a byte sequence: emit 4 characters per 3-byte group, padding the
final partial group with `=`. -/
def b64Encode : List Nat → List Char
  | [] => []
  | [a] => [b64enc (a / 4), b64enc (a % 4 * 16), '=', '=']
  | [a, b] => [b64enc (a / 4), b64enc (a % 4 * 16 + b / 16), b64enc (b % 16 * 4), '=']
  | a :: b :: c :: rest =>
      b64enc (a / 4) :: b64enc (a % 4 * 16 + b / 16) :: b64enc (b % 16 * 4 + c / 64) ::
        b64enc (c % 64) :: b64Encode rest

/-- Forgiving base64 decode (the core of `atob`), on input with ASCII
whitespace already removed: groups of four characters, `=` padding only in the
final group, trailing 2- or 3-character groups allowed with leftover bits
discarded, a trailing 1-character group an error. -/
def b64Decode : List Char → Option (List Nat)
  | [] => some []
  | [a, b] =>
      match b64dec a, b64dec b with
      | some x, some y => some [x * 4 + y / 16]
      | _, _ => none
  | [a, b, c] =>
      match b64dec a, b64dec b, b64dec c with
      | some x, some y, some z => some [x * 4 + y / 16, y % 16 * 16 + z / 4]
      | _, _, _ => none
  | [_] => none
  | a :: b :: c :: d :: rest =>
      match b64dec a, b64dec b with
      | some x, some y =>
        if c = '=' then
          if d = '=' ∧ rest = [] then some [x * 4 + y / 16] else none
        else
          match b64dec c with
          | some z =>
            if d = '=' then
              if rest = [] then some [x * 4 + y / 16, y % 16 * 16 + z / 4] else none
            else
              match b64dec d with
              | some w =>
                  (b64Decode rest).map
                    (fun t => (x * 4 + y / 16) :: (y % 16 * 16 + z / 4) :: (z % 4 * 64 + w) :: t)
              | none => none
          | none => none
      | _, _ => none

/-- The whitespace characters removed by forgiving base64 decode (`atob`):
TAB, LF, FF, CR, SPACE. -/
def isB64Space (c : Char) : Bool :=
  c.toNat = 9 || c.toNat = 10 || c.toNat = 12 || c.toNat = 13 || c.toNat = 32

/-- JavaScript `atob`: strip ASCII whitespace, then forgiving base64 decode. -/
def jsAtob (s : List Char) : Option (List Nat) :=
  b64Decode (s.filter (fun c => !(isB64Space c)))

/-- The character class of the JavaScript regular-expression escape `\s`
(ASCII whitespace, NBSP, the Unicode space separators, line separators, BOM). -/
def isJsSpace (c : Char) : Bool :=
  c.toNat = 9 || c.toNat = 10 || c.toNat = 11 || c.toNat = 12 || c.toNat = 13 ||
  c.toNat = 32 || c.toNat = 160 || c.toNat = 5760 ||
  (8192 ≤ c.toNat && c.toNat ≤ 8202) || c.toNat = 8232 || c.toNat = 8233 ||
  c.toNat = 8239 || c.toNat = 8287 || c.toNat = 12288 || c.toNat = 65279

/-! ### Base64 round trip -/

theorem b64dec_b64enc : ∀ i, i < 64 → b64dec (b64enc i) = some i := by decide

theorem b64enc_ne_eq : ∀ i, i < 64 → b64enc i ≠ '=' := by decide

theorem b64Decode_b64Encode (bs : List Nat) (h : ∀ x ∈ bs, x < 256) :
    b64Decode (b64Encode bs) = some bs := by
  match bs with
  | [] => rfl
  | [a] =>
    have ha : a < 256 := h a (by simp)
    have h1 : a / 4 < 64 := by omega
    have h2 : a % 4 * 16 < 64 := by omega
    simp [b64Encode, b64Decode, b64dec_b64enc _ h1, b64dec_b64enc _ h2]
    all_goals omega
  | [a, b] =>
    have ha : a < 256 := h a (by simp)
    have hb : b < 256 := h b (by simp)
    have h1 : a / 4 < 64 := by omega
    have h2 : a % 4 * 16 + b / 16 < 64 := by omega
    have h3 : b % 16 * 4 < 64 := by omega
    simp [b64Encode, b64Decode, b64dec_b64enc _ h1, b64dec_b64enc _ h2,
      b64dec_b64enc _ h3, b64enc_ne_eq _ h3]
    all_goals omega
  | a :: b :: c :: rest =>
    have ha : a < 256 := h a (by simp)
    have hb : b < 256 := h b (by simp)
    have hc : c < 256 := h c (by simp)
    have ih := b64Decode_b64Encode rest (fun x hx => h x (by simp [hx]))
    have h1 : a / 4 < 64 := by omega
    have h2 : a % 4 * 16 + b / 16 < 64 := by omega
    have h3 : b % 16 * 4 + c / 64 < 64 := by omega
    have h4 : c % 64 < 64 := by omega
    simp [b64Encode, b64Decode, b64dec_b64enc _ h1, b64dec_b64enc _ h2,
      b64dec_b64enc _ h3, b64dec_b64enc _ h4, b64enc_ne_eq _ h3, b64enc_ne_eq _ h4, ih]
    all_goals omega
termination_by bs.length

/-! ## String scanning helpers (modelling the JavaScript regex operations) -/

/-- Consume the literal `pat` from the front of `s`; `none` if `s` does not
start with `pat`. -/
def dropLiteral : List Char → List Char → Option (List Char)
  | [], s => some s
  | _ :: _, [] => none
  | p :: ps, c :: cs => if c = p then dropLiteral ps cs else none

/-- Split `s` around the first occurrence of the literal `pat`:
`some (before, after)` with `s = before ++ pat ++ after`, scanning left to
right; `none` if `pat` does not occur.  Models `String.prototype.indexOf` /
the literal part of a regex search. -/
def splitAtLiteral (pat : List Char) : List Char → Option (List Char × List Char)
  | [] => if pat = [] then some ([], []) else none
  | c :: cs =>
    match dropLiteral pat (c :: cs) with
    | some rest => some ([], rest)
    | none => (splitAtLiteral pat cs).map (fun pr => (c :: pr.1, pr.2))

/-- Five dashes, the delimiter of PEM armor markers. -/
def fiveDashes : List Char := ['-', '-', '-', '-', '-']

/-- Try to match the regex `-----TAG[^-]*-----` at the very start of `s`
(`TAG` is `BEGIN` or `END`); on success return the remainder after the
match. -/
def matchMarkerAt (tag : List Char) (s : List Char) : Option (List Char) :=
  match dropLiteral fiveDashes s with
  | none => none
  | some s1 =>
    match dropLiteral tag s1 with
    | none => none
    | some s2 =>
      dropLiteral fiveDashes (s2.dropWhile (fun c => !(c = '-')))

/-- `s.replace(/-----TAG[^-]*-----/, '')`: remove the leftmost match of the
marker regex, leaving `s` unchanged when there is no match. -/
def replaceMarker (tag : List Char) : List Char → List Char
  | [] => []
  | c :: cs =>
    match matchMarkerAt tag (c :: cs) with
    | some rest => rest
    | none => c :: replaceMarker tag cs

/-- Does `s` contain the literal `pat`?  Models `String.prototype.includes`. -/
def hasSubstr (pat s : List Char) : Bool := (splitAtLiteral pat s).isSome

/-- `s.replace(pat, repl)` with a *string* pattern: replace only the first
occurrence. -/
def replaceFirst (pat repl s : List Char) : List Char :=
  match splitAtLiteral pat s with
  | none => s
  | some pr => pr.1 ++ repl ++ pr.2

/-- JavaScript `String.prototype.trim`: strip whitespace from both ends. -/
def jsTrim (s : List Char) : List Char :=
  ((s.dropWhile isJsSpace).reverse.dropWhile isJsSpace).reverse

/-- `base64.match(/.{1,64}/g)?.join('\n') || ''` with fuel (the fuel is the
string length, always sufficient): cut into chunks of 64 characters joined by
newlines. -/
def chunkJoinAux : Nat → List Char → List Char
  | 0, s => s
  | fuel + 1, s =>
    if s.length ≤ 64 then s
    else s.take 64 ++ '\n' :: chunkJoinAux fuel (s.drop 64)

/-- Wrap a base64 body at 64 characters per line. -/
def chunkJoin (s : List Char) : List Char := chunkJoinAux s.length s

/-! ## PKIUtils: PEM codec (`arrayBufferToPem` / `pemToArrayBuffer`) -/

namespace PKI

/-- `PKIUtils.arrayBufferToPem`: base64-encode, wrap at 64 columns, and
surround with `-----BEGIN <type>-----` / `-----END <type>-----` armor. -/
def arrayBufferToPem (buffer : List Nat) (type : List Char) : List Char :=
  let base64 := b64Encode buffer
  let formatted := chunkJoin base64
  "-----BEGIN ".data ++ type ++ "-----\n".data ++ formatted ++
    "\n-----END ".data ++ type ++ "-----".data

/-- `PKIUtils.pemToArrayBuffer`: strip the BEGIN marker, strip the END marker,
remove all whitespace, validate non-emptiness and length divisible by four,
then `atob` the remainder.  `Except.error` carries the thrown message. -/
def pemToArrayBuffer (pem : List Char) : Except String (List Nat) :=
  let base64 :=
    ((replaceMarker "END".data (replaceMarker "BEGIN".data pem)).filter
      (fun c => !(isJsSpace c)))
  if base64 = [] then .error "Invalid PEM format: no content found"
  else if base64.length % 4 ≠ 0 then .error "Invalid base64 encoding: incorrect padding"
  else
    match jsAtob base64 with
    | none => .error "Invalid base64 encoding in PEM file"
    | some bytes => .ok bytes

end PKI

/-! ### Facts about the scanning helpers -/

theorem dropLiteral_append (p s : List Char) : dropLiteral p (p ++ s) = some s := by
  induction p with
  | nil => rfl
  | cons c cs ih => simp [dropLiteral, ih]

theorem dropWhile_append_all {p : Char → Bool} (xs ys : List Char)
    (h : ∀ x ∈ xs, p x = true) : (xs ++ ys).dropWhile p = ys.dropWhile p := by
  induction xs with
  | nil => rfl
  | cons c cs ih =>
    simp only [List.cons_append, List.dropWhile_cons]
    rw [h c (by simp)]
    simp [ih (fun x hx => h x (by simp [hx]))]

theorem matchMarkerAt_nil (tag : List Char) : matchMarkerAt tag [] = none := by
  simp [matchMarkerAt, fiveDashes, dropLiteral]

theorem replaceMarker_of_match {tag s : List Char} {r : List Char}
    (h : matchMarkerAt tag s = some r) : replaceMarker tag s = r := by
  cases s with
  | nil => rw [matchMarkerAt_nil] at h; cases h
  | cons c cs => simp [replaceMarker, h]

theorem matchMarkerAt_head_ne {tag : List Char} {c : Char} {cs : List Char}
    (h : c ≠ '-') : matchMarkerAt tag (c :: cs) = none := by
  simp [matchMarkerAt, fiveDashes, dropLiteral, h]

theorem replaceMarker_skip (tag : List Char) (pre s : List Char)
    (h : ∀ c ∈ pre, c ≠ '-') :
    replaceMarker tag (pre ++ s) = pre ++ replaceMarker tag s := by
  induction pre with
  | nil => rfl
  | cons c cs ih =>
    have hc : c ≠ '-' := h c (by simp)
    simp only [List.cons_append, replaceMarker, matchMarkerAt_head_ne hc]
    show c :: replaceMarker tag (cs ++ s) = c :: (cs ++ replaceMarker tag s)
    rw [ih (fun x hx => h x (by simp [hx]))]

/-- A full marker `-----TAG ++ mid ++ -----` at the head of the string is
matched whole, provided `mid` contains no dash and starts the `[^-]*` run. -/
theorem matchMarkerAt_exact (tag mid rest : List Char)
    (hmid : ∀ c ∈ mid, c ≠ '-') :
    matchMarkerAt tag (fiveDashes ++ tag ++ mid ++ fiveDashes ++ rest) = some rest := by
  have h3 : (mid ++ (fiveDashes ++ rest)).dropWhile (fun c => !(c = '-')) =
      fiveDashes ++ rest := by
    rw [dropWhile_append_all mid _ (by intro x hx; simpa using hmid x hx)]
    simp [fiveDashes, List.dropWhile_cons]
  unfold matchMarkerAt
  rw [List.append_assoc, List.append_assoc, List.append_assoc]
  simp only [dropLiteral_append]
  rw [h3]
  exact dropLiteral_append _ _

/-! ### Characters of the base64 encoding -/

theorem b64enc_mem (i : Nat) : b64enc i ∈ b64Alphabet := by
  unfold b64enc
  rcases Nat.lt_or_ge i b64Alphabet.length with h | h
  · rw [List.getD_eq_getElem _ _ h]
    exact List.getElem_mem _
  · rw [List.getD_eq_default _ _ h]
    decide

theorem b64Encode_chars (bs : List Nat) :
    ∀ c ∈ b64Encode bs, c ∈ b64Alphabet ∨ c = '=' := by
  match bs with
  | [] => intro c hc; cases hc
  | [a] =>
    intro c hc
    simp only [b64Encode, List.mem_cons, List.mem_singleton] at hc
    rcases hc with rfl | rfl | rfl | rfl | h
    · exact Or.inl (b64enc_mem _)
    · exact Or.inl (b64enc_mem _)
    · exact Or.inr rfl
    · exact Or.inr rfl
    · cases h
  | [a, b] =>
    intro c hc
    simp only [b64Encode, List.mem_cons, List.mem_singleton] at hc
    rcases hc with rfl | rfl | rfl | rfl | h
    · exact Or.inl (b64enc_mem _)
    · exact Or.inl (b64enc_mem _)
    · exact Or.inl (b64enc_mem _)
    · exact Or.inr rfl
    · cases h
  | a :: b :: c' :: rest =>
    intro c hc
    simp only [b64Encode, List.mem_cons] at hc
    rcases hc with rfl | rfl | rfl | rfl | h
    · exact Or.inl (b64enc_mem _)
    · exact Or.inl (b64enc_mem _)
    · exact Or.inl (b64enc_mem _)
    · exact Or.inl (b64enc_mem _)
    · exact b64Encode_chars rest c h
termination_by bs.length

theorem b64Alphabet_not_space : ∀ c ∈ b64Alphabet, isJsSpace c = false := by decide

theorem b64Alphabet_not_b64space : ∀ c ∈ b64Alphabet, isB64Space c = false := by decide

theorem b64Alphabet_ne_dash : ∀ c ∈ b64Alphabet, c ≠ '-' := by decide

theorem b64Encode_not_space (bs : List Nat) : ∀ c ∈ b64Encode bs, isJsSpace c = false := by
  intro c hc
  rcases b64Encode_chars bs c hc with h | rfl
  · exact b64Alphabet_not_space c h
  · decide

theorem b64Encode_not_b64space (bs : List Nat) :
    ∀ c ∈ b64Encode bs, isB64Space c = false := by
  intro c hc
  rcases b64Encode_chars bs c hc with h | rfl
  · exact b64Alphabet_not_b64space c h
  · decide

theorem b64Encode_ne_dash (bs : List Nat) : ∀ c ∈ b64Encode bs, c ≠ '-' := by
  intro c hc
  rcases b64Encode_chars bs c hc with h | rfl
  · exact b64Alphabet_ne_dash c h
  · decide

theorem b64Encode_length_mod (bs : List Nat) : (b64Encode bs).length % 4 = 0 := by
  match bs with
  | [] => rfl
  | [a] => simp [b64Encode]
  | [a, b] => simp [b64Encode]
  | a :: b :: c :: rest =>
    have ih := b64Encode_length_mod rest
    simp only [b64Encode, List.length_cons]
    omega
termination_by bs.length

theorem b64Encode_ne_nil (bs : List Nat) (h : bs ≠ []) : b64Encode bs ≠ [] := by
  match bs with
  | [] => exact absurd rfl h
  | [a] => simp [b64Encode]
  | [a, b] => simp [b64Encode]
  | a :: b :: c :: rest => simp [b64Encode]

/-! ### Line wrapping is invisible to whitespace stripping -/

theorem filter_chunkJoinAux (p : Char → Bool) (hnl : p '\n' = false) :
    ∀ fuel s, (chunkJoinAux fuel s).filter p = s.filter p := by
  intro fuel
  induction fuel with
  | zero => intro s; rfl
  | succ n ih =>
    intro s
    by_cases h : s.length ≤ 64
    · simp [chunkJoinAux, h]
    · simp only [chunkJoinAux, if_neg h, List.filter_append, List.filter_cons, hnl,
        Bool.false_eq_true, if_false]
      rw [ih (s.drop 64), ← List.filter_append, List.take_append_drop]

theorem chunkJoin_chars (s : List Char) : ∀ c ∈ chunkJoin s, c ∈ s ∨ c = '\n' := by
  unfold chunkJoin
  generalize s.length = fuel
  induction fuel generalizing s with
  | zero => intro c hc; exact Or.inl hc
  | succ n ih =>
    intro c hc
    simp only [chunkJoinAux] at hc
    by_cases h : s.length ≤ 64
    · rw [if_pos h] at hc; exact Or.inl hc
    · rw [if_neg h] at hc
      rcases List.mem_append.mp hc with h1 | h1
      · exact Or.inl (List.take_subset _ _ h1)
      · rcases List.mem_cons.mp h1 with rfl | h2
        · exact Or.inr rfl
        · rcases ih (s.drop 64) c h2 with h3 | h3
          · exact Or.inl (List.drop_subset _ _ h3)
          · exact Or.inr h3

/-! ### PEM round trip -/

/-- Stripping both armor markers and all whitespace from the produced PEM
recovers exactly the base64 body. -/
theorem pem_strip (buffer : List Nat) (type : List Char) (ht : ∀ c ∈ type, c ≠ '-') :
    (replaceMarker "END".data (replaceMarker "BEGIN".data
        (PKI.arrayBufferToPem buffer type))).filter (fun c => !(isJsSpace c)) =
      b64Encode buffer := by
  unfold PKI.arrayBufferToPem
  have hshape1 :
      "-----BEGIN ".data ++ type ++ "-----\n".data ++ chunkJoin (b64Encode buffer) ++
          "\n-----END ".data ++ type ++ "-----".data =
        fiveDashes ++ "BEGIN".data ++ (' ' :: type) ++ fiveDashes ++
          ('\n' :: (chunkJoin (b64Encode buffer) ++
            ('\n' :: ("-----END ".data ++ type ++ "-----".data)))) := by
    simp [fiveDashes]
  rw [hshape1]
  rw [replaceMarker_of_match (matchMarkerAt_exact "BEGIN".data (' ' :: type) _
    (by
      intro c hc
      rcases List.mem_cons.mp hc with rfl | h
      · decide
      · exact ht c h))]
  have hfmt : ∀ c ∈ chunkJoin (b64Encode buffer), c ≠ '-' := by
    intro c hc
    rcases chunkJoin_chars _ c hc with h | rfl
    · exact b64Encode_ne_dash _ c h
    · decide
  have hshape2 :
      '\n' :: (chunkJoin (b64Encode buffer) ++
          ('\n' :: ("-----END ".data ++ type ++ "-----".data))) =
        ('\n' :: chunkJoin (b64Encode buffer) ++ ['\n']) ++
          (fiveDashes ++ "END".data ++ (' ' :: type) ++ fiveDashes ++ []) := by
    simp [fiveDashes]
  rw [hshape2]
  rw [replaceMarker_skip _ _ _ (by
    intro c hc
    rcases List.mem_cons.mp hc with rfl | h1
    · decide
    · rcases List.mem_append.mp h1 with h2 | h2
      · exact hfmt c h2
      · rcases List.mem_singleton.mp h2 with rfl
        decide)]
  rw [replaceMarker_of_match (matchMarkerAt_exact "END".data (' ' :: type) []
    (by
      intro c hc
      rcases List.mem_cons.mp hc with rfl | h
      · decide
      · exact ht c h))]
  have h1 : (!(isJsSpace '\n')) = false := by decide
  simp only [List.append_nil, List.cons_append, List.filter_cons, List.filter_append,
    List.filter_nil, h1, Bool.false_eq_true, if_false]
  rw [show chunkJoin (b64Encode buffer) = chunkJoinAux (b64Encode buffer).length
        (b64Encode buffer) from rfl]
  rw [filter_chunkJoinAux (fun c => !(isJsSpace c)) h1]
  rw [List.filter_eq_self.mpr (by
    intro c hc
    simp [b64Encode_not_space buffer c hc])]

namespace PKI

/-- Claim C6 counterexample: for the EMPTY buffer the PEM round trip does not
return the original bytes — `pemToArrayBuffer` rejects the armor produced by
`arrayBufferToPem []` with the error `Invalid PEM format: no content found`,
so the claim "including the empty buffer" fails on the code. -/
theorem pem_roundtrip_empty_counterexample :
    pemToArrayBuffer (arrayBufferToPem [] "PKCS11".data) =
        .error "Invalid PEM format: no content found" ∧
      pemToArrayBuffer (arrayBufferToPem [] "PKCS11".data) ≠ .ok [] := by
  have h : pemToArrayBuffer (arrayBufferToPem [] "PKCS11".data) =
      .error "Invalid PEM format: no content found" := rfl
  exact ⟨h, by rw [h]; exact fun hc => Except.noConfusion hc⟩

/-- Claim C6 (amended): for every NONEMPTY byte buffer (bytes below 256, label
without a dash — all three labels accepted by `arrayBufferToPem` qualify),
PEM-decoding the PEM-encoding of the buffer returns the original bytes. -/
theorem pem_roundtrip_nonempty (buffer : List Nat) (type : List Char)
    (hne : buffer ≠ []) (hb : ∀ x ∈ buffer, x < 256) (ht : ∀ c ∈ type, c ≠ '-') :
    pemToArrayBuffer (arrayBufferToPem buffer type) = .ok buffer := by
  have hstrip := pem_strip buffer type ht
  have hnn := b64Encode_ne_nil buffer hne
  have hmod := b64Encode_length_mod buffer
  have hatob : jsAtob (b64Encode buffer) = some buffer := by
    unfold jsAtob
    rw [List.filter_eq_self.mpr (by
      intro c hc
      simp [b64Encode_not_b64space buffer c hc])]
    exact b64Decode_b64Encode buffer hb
  simp only [pemToArrayBuffer]
  rw [hstrip, if_neg hnn, if_neg (by simp [hmod]), hatob]

/-- Witness for C6 (amended) at the two-byte buffer `[104, 105]` with label
`PKCS11`. -/
theorem pem_roundtrip_nonempty_witness :
    ([104, 105] : List Nat) ≠ [] ∧
      pemToArrayBuffer (arrayBufferToPem [104, 105] "PKCS11".data) =
        Except.ok [104, 105] :=
  ⟨by decide,
   pem_roundtrip_nonempty [104, 105] "PKCS11".data (by decide) (by decide) (by decide)⟩

end PKI

deriving instance DecidableEq for Except

/-! ## PKIUtils.parseCertificateChain -/

namespace PKI

/-- The opening certificate armor marker. -/
def beginCertMarker : List Char := "-----BEGIN CERTIFICATE-----".data

/-- The closing certificate armor marker. -/
def endCertMarker : List Char := "-----END CERTIFICATE-----".data

/-- All matches of the global lazy regex
`-----BEGIN CERTIFICATE-----[\s\S]*?-----END CERTIFICATE-----` in order of
appearance, each match including its markers; scanning continues after each
match.  Fuel-driven (fuel = string length, always sufficient since every
match consumes at least both markers). -/
def certBlocksAux : Nat → List Char → List (List Char)
  | 0, _ => []
  | fuel + 1, s =>
    match splitAtLiteral beginCertMarker s with
    | none => []
    | some pr =>
      match splitAtLiteral endCertMarker pr.2 with
      | none => []
      | some pr2 =>
        (beginCertMarker ++ pr2.1 ++ endCertMarker) :: certBlocksAux fuel pr2.2

/-- `pemData.match(/-----BEGIN CERTIFICATE-----[\s\S]*?-----END CERTIFICATE-----/g)`. -/
def certBlocks (s : List Char) : List (List Char) := certBlocksAux s.length s

/-- The per-block body of `parseCertificateChain`: PEM-decode each block and
hand the DER bytes to the ASN.1/pkijs certificate parser (`certParse`, an
out-of-scope primitive, modelled as a parameter); the first failure
propagates. -/
def parseCertBlocks {α : Type} (certParse : List Nat → Option α) :
    List (List Char) → Except String (List α)
  | [] => .ok []
  | b :: bs =>
    match pemToArrayBuffer b with
    | .error e => .error e
    | .ok der =>
      match certParse der with
      | none => .error "Cannot parse certificate - invalid ASN.1 structure"
      | some cert =>
        match parseCertBlocks certParse bs with
        | .error e => .error e
        | .ok certs => .ok (cert :: certs)

/-- `PKIUtils.parseCertificateChain`: split the text into certificate blocks,
fail when there are none, parse each block in order; every thrown message is
wrapped by the outer catch. -/
def parseCertificateChain {α : Type} (certParse : List Nat → Option α)
    (pemData : List Char) : Except String (List α) :=
  let blocks := certBlocks pemData
  let inner : Except String (List α) :=
    if blocks = [] then .error "No certificates found in the provided file"
    else parseCertBlocks certParse blocks
  match inner with
  | .error e => .error ("Certificate chain parsing failed: " ++ e)
  | .ok certs => .ok certs

theorem parseCertBlocks_ok {α : Type} (certParse : List Nat → Option α)
    (derOf : List Char → List Nat) (certOf : List Char → α) (blocks : List (List Char))
    (h : ∀ b ∈ blocks, pemToArrayBuffer b = .ok (derOf b) ∧
      certParse (derOf b) = some (certOf b)) :
    parseCertBlocks certParse blocks = .ok (blocks.map certOf) := by
  induction blocks with
  | nil => rfl
  | cons b bs ih =>
    obtain ⟨h1, h2⟩ := h b (by simp)
    simp only [parseCertBlocks, h1, h2, ih (fun x hx => h x (by simp [hx])), List.map_cons]

/-- Claim C5: `parseCertificateChain` fails with the MalformedInput error
(`No certificates found in the provided file`, wrapped by the outer catch)
when the input contains zero BEGIN CERTIFICATE blocks, and on an input whose
blocks all decode and parse returns exactly one certificate per block, in
order of appearance in the input text. -/
theorem parseCertificateChain_spec {α : Type} (certParse : List Nat → Option α)
    (derOf : List Char → List Nat) (certOf : List Char → α) (pemData : List Char) :
    (certBlocks pemData = [] →
      parseCertificateChain certParse pemData =
        .error "Certificate chain parsing failed: No certificates found in the provided file") ∧
    (certBlocks pemData ≠ [] →
      (∀ b ∈ certBlocks pemData, pemToArrayBuffer b = .ok (derOf b) ∧
        certParse (derOf b) = some (certOf b)) →
      parseCertificateChain certParse pemData = .ok ((certBlocks pemData).map certOf)) := by
  constructor
  · intro h
    simp [parseCertificateChain, h]
  · intro hne h
    simp only [parseCertificateChain, if_neg hne,
      parseCertBlocks_ok certParse derOf certOf _ h]

/-- Witness for C5: a marker-free input yields the MalformedInput error, and a
two-block input (bodies `AAAA` and `/w==`) yields the two DER buffers in input
order. -/
theorem parseCertificateChain_spec_witness :
    parseCertificateChain (fun der : List Nat => some der) "no markers here".data =
        .error "Certificate chain parsing failed: No certificates found in the provided file" ∧
      parseCertificateChain (fun der : List Nat => some der)
          "-----BEGIN CERTIFICATE-----\nAAAA\n-----END CERTIFICATE-----\n-----BEGIN CERTIFICATE-----\n/w==\n-----END CERTIFICATE-----".data =
        .ok [[0, 0, 0], [255]] := by
  constructor
  · exact (parseCertificateChain_spec (fun der : List Nat => some der)
      (fun _ => []) (fun _ => []) "no markers here".data).1 (by decide)
  · have h := (parseCertificateChain_spec (fun der : List Nat => some der)
      (fun b => (pemToArrayBuffer b).toOption.getD [])
      (fun b => (pemToArrayBuffer b).toOption.getD [])
      "-----BEGIN CERTIFICATE-----\nAAAA\n-----END CERTIFICATE-----\n-----BEGIN CERTIFICATE-----\n/w==\n-----END CERTIFICATE-----".data).2
      (by decide) (by decide)
    rw [h]
    decide

end PKI

/-! ## PKIUtils: CMS signing and verification

The pkijs/asn1js primitives (schema construction, DER serialization, BER
parsing, WebCrypto sign/verify) are out-of-scope external collaborators per
the spec.  They are modelled by the `CMSLib` bundle of functions over opaque
certificate codes (`Nat`) and byte lists; the engines below are translated
from `signData` / `verifySignature` in `src/lib/pki-utils.ts` on top of that
bundle. -/

namespace PKI

/-- The parsed view of a CMS `ContentInfo`/`SignedData` pair: the embedded
certificate list (in embedded order) plus opaque signature material. -/
structure SignedView where
  certs : List Nat
  core : List Nat
deriving DecidableEq

/-- The external pkijs/asn1js/WebCrypto surface used by the engines:
`serializeSigned k c ch d` is the DER of the detached `ContentInfo` produced
by building a `SignedData` over certificates `c :: ch`, signing data `d` with
key `k` and serializing (`sign` + `toSchema().toBER()`); `parseSigned` is
`fromBER` plus the `ContentInfo`/`SignedData` constructors (`none` for any
parse failure); `verifyDetached v d c` is `SignedData.verify` with external
data `d` and trusted certificate `c`; `eContent` and `verifyEncap` are the
encapsulated-mode accessors used by the legacy fallback. -/
structure CMSLib where
  serializeSigned : Nat → Nat → List Nat → List Nat → List Nat
  parseSigned : List Nat → Option SignedView
  verifyDetached : SignedView → List Nat → Nat → Bool
  eContent : SignedView → Option (List Nat)
  verifyEncap : SignedView → Nat → Bool

/-- `DataView.setUint32(0, n, false)`: the four big-endian bytes of
`n mod 2^32`. -/
def be32 (n : Nat) : List Nat :=
  let m := n % 4294967296
  [m / 16777216 % 256, m / 65536 % 256, m / 256 % 256, m % 256]

/-- `DataView.getUint32(0, false)` on the first four bytes. -/
def be32val (bytes : List Nat) : Nat :=
  match bytes with
  | [b0, b1, b2, b3] => ((b0 * 256 + b1) * 256 + b2) * 256 + b3
  | _ => 0

theorem be32_length (n : Nat) : (be32 n).length = 4 := rfl

theorem be32val_be32 (n : Nat) (h : n < 4294967296) : be32val (be32 n) = n := by
  simp only [be32, be32val]
  omega

/-- `Uint8Array.prototype.set(src, off)` on a buffer large enough to hold
`src` at offset `off`. -/
def bufWrite (buf : List Nat) (off : Nat) (src : List Nat) : List Nat :=
  buf.take off ++ src ++ buf.drop (off + src.length)

/-- `PKIUtils.signData`: build the detached CMS structure over
`[certificate] ++ caChain`, serialize it, then assemble the combined wire
format in an oversized zero-filled buffer — 4-byte big-endian signature
length, signature bytes, raw payload — and slice off exactly the used
portion. -/
def signData (lib : CMSLib) (data : List Nat) (privateKey : Nat) (certificate : Nat)
    (caChain : List Nat) : List Nat :=
  let signatureBuffer := lib.serializeSigned privateKey certificate caChain data
  let combinedSize := signatureBuffer.length + data.length + 1024
  let combinedBuffer := List.replicate combinedSize 0
  let b1 := bufWrite combinedBuffer 0 (be32 signatureBuffer.length)
  let b2 := bufWrite b1 4 signatureBuffer
  let b3 := bufWrite b2 (4 + signatureBuffer.length) data
  b3.take (4 + signatureBuffer.length + data.length)

/-- The result record of `PKIUtils.verifySignature`. -/
structure VerifyResult where
  verified : Bool
  data : Option (List Nat)
  certificate : Option Nat
  certificateChain : Option (List Nat)
deriving DecidableEq

/-- The first (detached-combined) attempt of `PKIUtils.verifySignature`: read
and bounds-check the length prefix, split signature structure from trailing
payload, parse the structure, select the verification certificate
(caller-supplied first, else the first embedded one), and verify over the
trailing payload.  Every `throw` of the source is an `Except.error`. -/
def verifyDetachedAttempt (lib : CMSLib) (combinedData : List Nat)
    (certificate : Option Nat) : Except String VerifyResult :=
  if combinedData.length < 4 then
    .error "Offset is outside the bounds of the DataView"
  else
    let signatureLength := be32val (combinedData.take 4)
    if signatureLength = 0 ∨ signatureLength > combinedData.length - 4 then
      .error "Invalid combined signature format"
    else
      let signatureData := (combinedData.drop 4).take signatureLength
      let originalData := combinedData.drop (4 + signatureLength)
      match lib.parseSigned signatureData with
      | none => .error "Cannot parse signature - invalid ASN.1 structure"
      | some cmsSignedData =>
        let verificationCert :=
          match certificate with
          | some c => some c
          | none => cmsSignedData.certs.head?
        match verificationCert with
        | none => .error "No certificate found in signature and none provided"
        | some vc =>
          .ok { verified := lib.verifyDetached cmsSignedData originalData vc,
                data := some originalData,
                certificate := some vc,
                certificateChain :=
                  if cmsSignedData.certs.length > 0 then some cmsSignedData.certs
                  else none }

/-- The fallback (legacy encapsulated) attempt: parse the whole buffer as an
encapsulated structure and verify it, recovering the payload from the
embedded `eContent` when present. -/
def verifyLegacyAttempt (lib : CMSLib) (combinedData : List Nat)
    (certificate : Option Nat) : Except String VerifyResult :=
  match lib.parseSigned combinedData with
  | none => .error "Cannot parse signed data - invalid ASN.1 structure"
  | some cmsSignedData =>
    let verificationCert :=
      match certificate with
      | some c => some c
      | none => cmsSignedData.certs.head?
    match verificationCert with
    | none => .error "No certificate found in signature and none provided"
    | some vc =>
      .ok { verified := lib.verifyEncap cmsSignedData vc,
            data := lib.eContent cmsSignedData,
            certificate := some vc,
            certificateChain :=
              if cmsSignedData.certs.length > 0 then some cmsSignedData.certs
              else none }

/-- `PKIUtils.verifySignature`: try the detached-combined format; on any
thrown error fall back to the legacy encapsulated format; if the fallback
also throws, rethrow wrapping the FIRST attempt's message. -/
def verifySignature (lib : CMSLib) (combinedData : List Nat)
    (certificate : Option Nat) : Except String VerifyResult :=
  match verifyDetachedAttempt lib combinedData certificate with
  | .ok r => .ok r
  | .error e =>
    match verifyLegacyAttempt lib combinedData certificate with
    | .ok r => .ok r
    | .error _ => .error ("Signature verification failed: " ++ e)

/-- The oversized-buffer assembly of `signData` produces exactly
prefix ++ signature ++ payload. -/
theorem signData_eq (lib : CMSLib) (data : List Nat) (k c : Nat) (ch : List Nat) :
    signData lib data k c ch =
      be32 (lib.serializeSigned k c ch data).length ++
        lib.serializeSigned k c ch data ++ data := by
  unfold signData
  generalize lib.serializeSigned k c ch data = sig
  have hb1 : bufWrite (List.replicate (sig.length + data.length + 1024) 0) 0 (be32 sig.length) =
      be32 sig.length ++ List.replicate (sig.length + data.length + 1024 - 4) 0 := by
    simp [bufWrite, be32_length, List.drop_replicate]
  have hb2 : bufWrite
      (be32 sig.length ++ List.replicate (sig.length + data.length + 1024 - 4) 0) 4 sig =
      (be32 sig.length ++ sig) ++
        List.replicate (sig.length + data.length + 1024 - 4 - sig.length) 0 := by
    unfold bufWrite
    rw [List.take_left' (be32_length sig.length),
      show (4 : Nat) + sig.length = (be32 sig.length).length + sig.length from by
        rw [be32_length],
      List.drop_append sig.length, List.drop_replicate]
  have hb3 : bufWrite
      ((be32 sig.length ++ sig) ++
        List.replicate (sig.length + data.length + 1024 - 4 - sig.length) 0)
      (4 + sig.length) data =
      ((be32 sig.length ++ sig) ++ data) ++
        List.replicate (sig.length + data.length + 1024 - 4 - sig.length - data.length) 0 := by
    unfold bufWrite
    rw [List.take_left' (by simp [be32_length]),
      show (4 : Nat) + sig.length + data.length =
          (be32 sig.length ++ sig).length + data.length from by simp [be32_length],
      List.drop_append data.length, List.drop_replicate]
  have hfin : (((be32 sig.length ++ sig) ++ data) ++
      List.replicate (sig.length + data.length + 1024 - 4 - sig.length - data.length) 0).take
        (4 + sig.length + data.length) =
      (be32 sig.length ++ sig) ++ data :=
    List.take_left' (by simp [be32_length]; omega)
  show (bufWrite (bufWrite (bufWrite
      (List.replicate (sig.length + data.length + 1024) 0) 0 (be32 sig.length)) 4 sig)
      (4 + sig.length) data).take (4 + sig.length + data.length) =
      be32 sig.length ++ sig ++ data
  rw [hb1, hb2, hb3, hfin, List.append_assoc]

theorem set_append_right (x y : List Nat) (n m : Nat) :
    (x ++ y).set (x.length + n) m = x ++ y.set n m := by
  simp [List.set_append]

/-- Evaluation of the detached attempt on a well-formed combined envelope
`be32 L ++ sig ++ data`. -/
theorem verifyDetachedAttempt_wellformed (lib : CMSLib) (sig data : List Nat)
    (cert : Option Nat) (hlen : sig.length < 4294967296) (hpos : 0 < sig.length) :
    verifyDetachedAttempt lib (be32 sig.length ++ sig ++ data) cert =
      match lib.parseSigned sig with
      | none => .error "Cannot parse signature - invalid ASN.1 structure"
      | some v =>
        match (match cert with | some c => some c | none => v.certs.head?) with
        | none => .error "No certificate found in signature and none provided"
        | some vc =>
          .ok { verified := lib.verifyDetached v data vc, data := some data,
                certificate := some vc,
                certificateChain := if v.certs.length > 0 then some v.certs else none } := by
  have hlen4 : (be32 sig.length ++ sig ++ data).length = 4 + (sig.length + data.length) := by
    simp [be32_length]
  have hval : be32val ((be32 sig.length ++ sig ++ data).take 4) = sig.length := by
    rw [List.append_assoc, List.take_left' (be32_length _), be32val_be32 _ hlen]
  have hsd : ((be32 sig.length ++ sig ++ data).drop 4).take sig.length = sig := by
    rw [List.append_assoc,
      show (4 : Nat) = (be32 sig.length).length from (be32_length _).symm, List.drop_left,
      List.take_left]
  have horig : (be32 sig.length ++ sig ++ data).drop (4 + sig.length) = data := by
    rw [show 4 + sig.length = (be32 sig.length ++ sig).length from by simp [be32_length],
      List.drop_left]
  simp only [verifyDetachedAttempt, hlen4, hval, hsd, horig]
  rw [if_neg (by omega), if_neg (by omega)]

/-- A small concrete `CMSLib` to instantiate the engine theorems: the "DER"
of the signature structure is a tag byte, the signer certificate code, then
the signed payload; parsing recognises that shape; detached verification
compares the recorded payload with the presented external data. -/
def mockLib : CMSLib where
  serializeSigned := fun _k c _ch d => 9 :: c :: d
  parseSigned := fun bytes =>
    match bytes with
    | 9 :: c :: rest => some { certs := [c], core := rest }
    | _ => none
  verifyDetached := fun v d c => decide (v.core = d) && decide (c ∈ v.certs)
  eContent := fun _ => none
  verifyEncap := fun _ _ => false

/-- A concrete `CMSLib` on which every parse fails (as pkijs does on byte
buffers that are not valid BER). -/
def failLib : CMSLib where
  serializeSigned := fun _ _ _ _ => []
  parseSigned := fun _ => none
  verifyDetached := fun _ _ _ => false
  eContent := fun _ => none
  verifyEncap := fun _ _ => false

/-- Claim C1: for every payload and valid certificate/key pair — expressed by
the pkijs-soundness hypotheses at the signing input: the serialized detached
structure is nonempty, fits the 4-byte length prefix, parses back to a view
embedding `certificate :: caChain`, and its detached verification over the
signed payload with the signer certificate succeeds — verifying the envelope
produced by `signData` returns `verified = true` and recovers the payload
byte for byte. -/
theorem signData_verifySignature_roundtrip (lib : CMSLib) (data : List Nat)
    (k c : Nat) (ch : List Nat) (v : SignedView)
    (hlen : (lib.serializeSigned k c ch data).length < 4294967296)
    (hpos : 0 < (lib.serializeSigned k c ch data).length)
    (hparse : lib.parseSigned (lib.serializeSigned k c ch data) = some v)
    (hcerts : v.certs = c :: ch)
    (hverify : lib.verifyDetached v data c = true) :
    verifySignature lib (signData lib data k c ch) none =
      .ok { verified := true, data := some data, certificate := some c,
            certificateChain := some (c :: ch) } := by
  have h := verifyDetachedAttempt_wellformed lib (lib.serializeSigned k c ch data) data
    none hlen hpos
  simp only [hparse, hcerts, hverify, List.head?_cons, List.length_cons] at h
  unfold verifySignature
  rw [signData_eq, h]
  simp

/-- Witness for C1 with the concrete mock library, payload `[7, 8]`, key 1,
certificate 2, empty chain. -/
theorem signData_verifySignature_roundtrip_witness :
    verifySignature mockLib (signData mockLib [7, 8] 1 2 []) none =
      .ok { verified := true, data := some [7, 8], certificate := some 2,
            certificateChain := some [2] } :=
  signData_verifySignature_roundtrip mockLib [7, 8] 1 2 [] ⟨[2], [7, 8]⟩
    (by decide) (by decide) (by decide) (by decide) (by decide)

/-- Claim C2: the legacy fallback runs only when the detached attempt throws
(first conjunct: a successful detached attempt is returned unchanged by
`verifySignature`), and flipping any single payload byte of a detached
envelope after signing makes both the detached attempt and the whole
verification return `verified = false` — a value, not a thrown error, so the
envelope is never retried as encapsulated. -/
theorem verify_tampered_payload_reports_false (lib : CMSLib) (data : List Nat)
    (k c : Nat) (ch : List Nat) (v : SignedView) (i b : Nat)
    (_hi : i < data.length)
    (hlen : (lib.serializeSigned k c ch data).length < 4294967296)
    (hpos : 0 < (lib.serializeSigned k c ch data).length)
    (hparse : lib.parseSigned (lib.serializeSigned k c ch data) = some v)
    (hcerts : v.certs = c :: ch)
    (hverify : lib.verifyDetached v (data.set i b) c = false) :
    (∀ buf cert r, verifyDetachedAttempt lib buf cert = .ok r →
        verifySignature lib buf cert = .ok r) ∧
      verifyDetachedAttempt lib
          ((signData lib data k c ch).set
            (4 + (lib.serializeSigned k c ch data).length + i) b) none =
        .ok { verified := false, data := some (data.set i b), certificate := some c,
              certificateChain := some (c :: ch) } ∧
      verifySignature lib
          ((signData lib data k c ch).set
            (4 + (lib.serializeSigned k c ch data).length + i) b) none =
        .ok { verified := false, data := some (data.set i b), certificate := some c,
              certificateChain := some (c :: ch) } := by
  have hfb : ∀ buf cert r, verifyDetachedAttempt lib buf cert = .ok r →
      verifySignature lib buf cert = .ok r := by
    intro buf cert r hr
    unfold verifySignature
    rw [hr]
  have hset : (signData lib data k c ch).set
      (4 + (lib.serializeSigned k c ch data).length + i) b =
      be32 (lib.serializeSigned k c ch data).length ++
        lib.serializeSigned k c ch data ++ data.set i b := by
    rw [signData_eq, List.append_assoc,
      show 4 + (lib.serializeSigned k c ch data).length + i =
          (be32 (lib.serializeSigned k c ch data).length).length +
            ((lib.serializeSigned k c ch data).length + i) from by
        rw [be32_length]; omega,
      set_append_right, set_append_right, ← List.append_assoc]
  have hwf := verifyDetachedAttempt_wellformed lib (lib.serializeSigned k c ch data)
    (data.set i b) none hlen hpos
  simp only [hparse, hcerts, hverify, List.head?_cons, List.length_cons] at hwf
  have hatt : verifyDetachedAttempt lib
      ((signData lib data k c ch).set
        (4 + (lib.serializeSigned k c ch data).length + i) b) none =
      .ok { verified := false, data := some (data.set i b), certificate := some c,
            certificateChain := some (c :: ch) } := by
    rw [hset, hwf]
    simp
  exact ⟨hfb, hatt, hfb _ _ _ hatt⟩

/-- Witness for C2: flipping payload byte 0 of the mock envelope to 5 yields
`verified = false` from both the detached attempt and `verifySignature`. -/
theorem verify_tampered_payload_reports_false_witness :
    verifySignature mockLib ((signData mockLib [7, 8] 1 2 []).set (4 + 4 + 0) 5) none =
      .ok { verified := false, data := some [5, 8], certificate := some 2,
            certificateChain := some [2] } :=
  (verify_tampered_payload_reports_false mockLib [7, 8] 1 2 [] ⟨[2], [7, 8]⟩ 0 5
    (by decide) (by decide) (by decide) (by decide) (by decide) (by decide)).2.2

/-- Claim C3 counterexample: the nine-byte buffer `[0,0,0,1,5,6,7,8,9]`
carries the length prefix 1, which violates the claimed bound `4 < L`, yet
the code accepts the prefix (its check is only `0 < L ≤ total − 4`), attempts
to parse the one-byte signature slice, and — with a library on which that
parse fails, as any real BER parser does on a single byte — ends in the
ASN.1 parse error, not a framing error. -/
theorem framing_bound_counterexample :
    verifySignature failLib [0, 0, 0, 1, 5, 6, 7, 8, 9] none =
      .error "Signature verification failed: Cannot parse signature - invalid ASN.1 structure" := by
  rfl

/-- Claim C3 (amended): the framing bound enforced by `verifySignature` is
`0 < prefixed_length ≤ total_length − 4`; for a buffer of length at least 4
whose prefix violates THIS bound, the detached attempt fails with the framing
error `Invalid combined signature format` without parsing any signature
slice, and when the legacy fallback cannot parse the buffer either, the whole
call fails with that framing error. -/
theorem framing_error_behavior (lib : CMSLib) (buf : List Nat) (cert : Option Nat)
    (h4 : ¬ buf.length < 4)
    (hviol : be32val (buf.take 4) = 0 ∨ be32val (buf.take 4) > buf.length - 4) :
    verifyDetachedAttempt lib buf cert = .error "Invalid combined signature format" ∧
      (lib.parseSigned buf = none →
        verifySignature lib buf cert =
          .error "Signature verification failed: Invalid combined signature format") := by
  have hatt : verifyDetachedAttempt lib buf cert =
      .error "Invalid combined signature format" := by
    unfold verifyDetachedAttempt
    rw [if_neg h4, if_pos hviol]
  refine ⟨hatt, fun hparse => ?_⟩
  unfold verifySignature
  rw [hatt]
  unfold verifyLegacyAttempt
  rw [hparse]
  rfl

/-- Witness for C3 (amended): prefix 200 on a six-byte buffer exceeds the
remaining length, so the call fails with the framing error on the
parse-failing library. -/
theorem framing_error_behavior_witness :
    verifySignature failLib [0, 0, 0, 200, 1, 2] none =
      .error "Signature verification failed: Invalid combined signature format" :=
  (framing_error_behavior failLib [0, 0, 0, 200, 1, 2] none
    (by decide) (by decide)).2 (by decide)

/-- Claim C4: the envelope emitted by `signData` is exactly the 4-byte
big-endian length of the serialized detached signature structure, the
structure bytes, then the raw payload with nothing after; reading the prefix
back gives the structure length, and the trailing bytes beyond the
4-byte-plus-signature prefix equal the payload exactly. -/
theorem signData_wire_layout (lib : CMSLib) (data : List Nat) (k c : Nat) (ch : List Nat)
    (hlen : (lib.serializeSigned k c ch data).length < 4294967296) :
    signData lib data k c ch =
        be32 (lib.serializeSigned k c ch data).length ++
          lib.serializeSigned k c ch data ++ data ∧
      be32val ((signData lib data k c ch).take 4) =
        (lib.serializeSigned k c ch data).length ∧
      (signData lib data k c ch).drop
          (4 + (lib.serializeSigned k c ch data).length) = data := by
  refine ⟨signData_eq lib data k c ch, ?_, ?_⟩
  · rw [signData_eq, List.append_assoc, List.take_left' (be32_length _),
      be32val_be32 _ hlen]
  · rw [signData_eq,
      show 4 + (lib.serializeSigned k c ch data).length =
          (be32 (lib.serializeSigned k c ch data).length ++
            lib.serializeSigned k c ch data).length from by simp [be32_length],
      List.drop_left]

/-- Witness for C4 with the concrete mock library: the envelope is the
4-byte prefix `[0,0,0,4]`, the 4 structure bytes, then the payload. -/
theorem signData_wire_layout_witness :
    (mockLib.serializeSigned 1 2 [] [7, 8]).length < 4294967296 ∧
      signData mockLib [7, 8] 1 2 [] = [0, 0, 0, 4, 9, 2, 7, 8, 7, 8] := by
  refine ⟨by decide, ?_⟩
  rw [(signData_wire_layout mockLib [7, 8] 1 2 [] (by decide)).1]
  decide

end PKI

/-! ## HSMUtils: signer-info construction (`src/lib/hsm-utils.ts`) -/

namespace HSMUtils

/-- A pkijs `AlgorithmIdentifier` restricted to its OID. -/
structure AlgorithmIdentifier where
  algorithmId : String
deriving DecidableEq

/-- The issuer/serial pair taken from the signer certificate. -/
structure CertificateRef where
  issuer : String
  serialNumber : String

/-- The `SignerInfo` record as built by the source. -/
structure SignerInfo where
  version : Nat
  sidIssuer : String
  sidSerialNumber : String
  digestAlgorithm : AlgorithmIdentifier
  signatureAlgorithm : AlgorithmIdentifier
  signature : List Nat

/-- `HSMUtils.createSignerInfoWithHSMSignature`: base64-decode the HSM
signature (`atob`; `none` models the uncaught decode exception) and build the
SignerInfo with issuer+serial of the certificate, the digest-algorithm OID
chosen by the source's conditional, and the fixed RSA-with-SHA-256 signature
algorithm OID. -/
def createSignerInfoWithHSMSignature (certificate : CertificateRef)
    (hsmSignature : String) (hashAlgorithm : String) : Option SignerInfo :=
  match jsAtob hsmSignature.data with
  | none => none
  | some signatureArray =>
    some { version := 1,
           sidIssuer := certificate.issuer,
           sidSerialNumber := certificate.serialNumber,
           digestAlgorithm := ⟨if hashAlgorithm = "SHA-256"
             then "2.16.840.1.101.3.4.2.1" else "2.16.840.1.101.3.4.2.1"⟩,
           signatureAlgorithm := ⟨"1.2.840.113549.1.1.11"⟩,
           signature := signatureArray }

/-- Claim C9: the digest-algorithm OID selected by
`createSignerInfoWithHSMSignature` is the SHA-256 OID `2.16.840.1.101.3.4.2.1`
for every caller-specified hash algorithm name — both branches of the
source's conditional produce the same constant. -/
theorem digest_oid_constant (certificate : CertificateRef)
    (hsmSignature hashAlgorithm : String) (si : SignerInfo)
    (h : createSignerInfoWithHSMSignature certificate hsmSignature hashAlgorithm = some si) :
    si.digestAlgorithm.algorithmId = "2.16.840.1.101.3.4.2.1" := by
  unfold createSignerInfoWithHSMSignature at h
  cases hj : jsAtob hsmSignature.data with
  | none => rw [hj] at h; cases h
  | some arr =>
    rw [hj] at h
    cases h
    by_cases hh : hashAlgorithm = "SHA-256" <;> simp [hh]

/-- Witness for C9: a caller-specified algorithm name of `SHA-512` still
yields the SHA-256 digest OID. -/
theorem digest_oid_constant_witness :
    ∃ si, createSignerInfoWithHSMSignature ⟨"issuer", "serial"⟩ "AAAA" "SHA-512" =
        some si ∧ si.digestAlgorithm.algorithmId = "2.16.840.1.101.3.4.2.1" :=
  ⟨{ version := 1, sidIssuer := "issuer", sidSerialNumber := "serial",
     digestAlgorithm := ⟨"2.16.840.1.101.3.4.2.1"⟩,
     signatureAlgorithm := ⟨"1.2.840.113549.1.1.11"⟩, signature := [0, 0, 0] },
   rfl, digest_oid_constant ⟨"issuer", "serial"⟩ "AAAA" "SHA-512" _ rfl⟩

end HSMUtils

/-! ## HSMSocketClient, TCP variant (`src/lib/hsm-socket.ts`, host:port) -/

namespace HSMTcp

/-- The wire request record. -/
structure HSMSocketMessage where
  command : String
  keyId : Option String := none
  cardName : Option String := none
  passphrase : Option String := none
  dataHash : Option String := none
  hashAlgorithm : Option String := none
deriving DecidableEq

/-- The wire response record. -/
structure HSMSocketResponse where
  success : Bool
  data : Option String := none
  error : Option String := none
  certificates : Option (List String) := none
  signature : Option String := none
deriving DecidableEq

/-- The transport oracle for one client call: the outcome of `connect()` and
of `sendCommand` per request (an `Except.error` is a rejected promise:
connection failure, socket error, or command timeout). -/
structure Transport where
  connect : Except String Unit
  send : HSMSocketMessage → Except String HSMSocketResponse

/-- JavaScript template-literal rendering of a possibly-undefined string. -/
def jsShow (o : Option String) : String := o.getD "undefined"

/-- `HSMSocketClient.signData` (TCP variant): connect, send AUTHENTICATE,
abort with a tagged failure when authentication reports failure, otherwise
send SIGN_HASH.  Returns the response paired with the trace of requests
actually written to the socket. -/
def signData (t : Transport)
    (keyId dataHash cardName passphrase hashAlgorithm : String) :
    HSMSocketResponse × List HSMSocketMessage :=
  match t.connect with
  | .error e => ({ success := false, error := some e }, [])
  | .ok _ =>
    let authMsg : HSMSocketMessage :=
      { command := "AUTHENTICATE", cardName := some cardName,
        passphrase := some passphrase }
    match t.send authMsg with
    | .error e => ({ success := false, error := some e }, [authMsg])
    | .ok authResponse =>
      if !authResponse.success then
        ({ success := false,
           error := some ("HSM authentication failed: " ++ jsShow authResponse.error) },
         [authMsg])
      else
        let signMsg : HSMSocketMessage :=
          { command := "SIGN_HASH", keyId := some keyId, dataHash := some dataHash,
            hashAlgorithm := some hashAlgorithm }
        match t.send signMsg with
        | .error e => ({ success := false, error := some e }, [authMsg, signMsg])
        | .ok signResponse => (signResponse, [authMsg, signMsg])

/-- The AUTHENTICATE request built by `signData`. -/
def authMsgOf (cardName passphrase : String) : HSMSocketMessage :=
  { command := "AUTHENTICATE", cardName := some cardName,
    passphrase := some passphrase }

/-- Claim C7: when the AUTHENTICATE response reports failure, the overall
call reports a remote-authentication failure (`success = false` with the
`HSM authentication failed:` message), the wire trace is exactly the single
AUTHENTICATE request, and in particular no SIGN_HASH request is ever sent. -/
theorem signData_auth_failure_aborts (t : Transport)
    (keyId dataHash cardName passphrase hashAlgorithm : String)
    (r : HSMSocketResponse)
    (hconn : t.connect = .ok ())
    (hauth : t.send (authMsgOf cardName passphrase) = .ok r)
    (hfail : r.success = false) :
    (signData t keyId dataHash cardName passphrase hashAlgorithm).1.success = false ∧
      (signData t keyId dataHash cardName passphrase hashAlgorithm).1.error =
        some ("HSM authentication failed: " ++ jsShow r.error) ∧
      (signData t keyId dataHash cardName passphrase hashAlgorithm).2 =
        [authMsgOf cardName passphrase] ∧
      ∀ m ∈ (signData t keyId dataHash cardName passphrase hashAlgorithm).2,
        m.command ≠ "SIGN_HASH" := by
  simp only [signData, authMsgOf] at *
  simp [hconn, hauth, hfail]

/-- A transport whose AUTHENTICATE handshake always reports failure. -/
def authFailTransport : Transport where
  connect := .ok ()
  send := fun _ => .ok { success := false, error := some "bad pin" }

/-- Witness for C7 on the always-failing transport. -/
theorem signData_auth_failure_aborts_witness :
    (signData authFailTransport "k1" "h1" "card1" "pw" "SHA-256").1.success = false ∧
      ∀ m ∈ (signData authFailTransport "k1" "h1" "card1" "pw" "SHA-256").2,
        m.command ≠ "SIGN_HASH" := by
  have h := signData_auth_failure_aborts authFailTransport "k1" "h1" "card1" "pw" "SHA-256"
    { success := false, error := some "bad pin" } rfl rfl rfl
  exact ⟨h.1, h.2.2.2⟩

end HSMTcp

/-! ## HSMSocketClient, Unix-socket-path variant
(`src/lib/hsm-socket.ts`, socket path + kmdata filesystem store) -/

namespace HSMUnix

/-- The wire request record (same shape as the TCP variant's). -/
structure HSMSocketMessage where
  command : String
  keyId : Option String := none
  cardName : Option String := none
  passphrase : Option String := none
  dataHash : Option String := none
  hashAlgorithm : Option String := none
deriving DecidableEq

/-- A certificate entry assembled by `getCertificates`. -/
structure HSMCertEntry where
  id : String
  cardName : String
  keyId : String
  pemData : String
  subject : String
  issuer : String
  validFrom : String
  validTo : String
deriving DecidableEq

/-- A filesystem-backed credential ("softcard"). -/
structure SoftCard where
  name : String
  path : String
  isValid : Bool
  certificates : Option (List String) := none
deriving DecidableEq

/-- The shapes the untyped `data` field takes in this file: raw response
text, or the softcard-details object of `getSoftCardDetails`
(name, path, isValid, certificates). -/
inductive ResponseData where
  | str : String → ResponseData
  | cardDetails : String → String → Bool → List String → ResponseData
deriving DecidableEq

/-- The wire/operation response record. -/
structure HSMSocketResponse where
  success : Bool
  data : Option ResponseData := none
  error : Option String := none
  certificates : Option (List HSMCertEntry) := none
  signature : Option String := none
deriving DecidableEq

/-- One `fs.Dirent`. -/
structure DirEntry where
  name : String
  isDirectory : Bool
deriving DecidableEq

/-- The filesystem / clock / transport oracle for one client call.  An
`Except.error` models a rejected promise (thrown filesystem error, connect
failure, socket error, or command timeout). -/
structure Env where
  access : String → Bool
  readdirTypes : String → Except String (List DirEntry)
  readdirNames : String → Except String (List String)
  readFile : String → Except String String
  nowISO : String
  yearFromNowISO : String
  connect : Except String Unit
  send : HSMSocketMessage → Except String HSMSocketResponse

/-- `path.join` for the simple segment shapes used here. -/
def pathJoin (a b : String) : String := a ++ "/" ++ b

/-- `HSMSocketClient.getSoftCards`: enumerate subdirectories of the kmdata
root; a subdirectory with a key/certificate-named file is a valid softcard
(with its `.crt` files listed), a subdirectory whose listing fails is pushed
invalid, a subdirectory without key files is skipped.  NOTE: on failure this
operation re-THROWS (`Except.error`) with the
`Failed to discover softcards:` wrapper instead of returning a tagged
response. -/
def getSoftCards (env : Env) (kmDataPath : String) : Except String (List SoftCard) :=
  if !(env.access kmDataPath) then
    .error ("Failed to discover softcards: nFast kmdata path not found: " ++ kmDataPath)
  else
    match env.readdirTypes kmDataPath with
    | .error e => .error ("Failed to discover softcards: " ++ e)
    | .ok entries =>
      .ok (entries.foldr (fun entry cards =>
        if entry.isDirectory then
          let cardPath := pathJoin kmDataPath entry.name
          match env.readdirNames cardPath with
          | .error _ =>
            { name := entry.name, path := cardPath, isValid := false } :: cards
          | .ok cardFiles =>
            if cardFiles.any (fun file =>
                file.endsWith ".key" || file.endsWith ".crt" ||
                  hasSubstr "key_".data file.data) then
              { name := entry.name, path := cardPath, isValid := true,
                certificates := some (cardFiles.filter (fun f => f.endsWith ".crt")) } ::
                cards
            else cards
        else cards) [])

/-- `extractSubjectFromPEM`: first line containing `Subject:`, with the label
removed and the rest trimmed. -/
def extractSubjectFromPEM (pemData : String) : String :=
  match (pemData.splitOn "\n").find? (fun line => hasSubstr "Subject:".data line.data) with
  | some line => String.mk (jsTrim (replaceFirst "Subject:".data [] line.data))
  | none => "Unknown Subject"

/-- `extractIssuerFromPEM`: first line containing `Issuer:`, with the label
removed and the rest trimmed. -/
def extractIssuerFromPEM (pemData : String) : String :=
  match (pemData.splitOn "\n").find? (fun line => hasSubstr "Issuer:".data line.data) with
  | some line => String.mk (jsTrim (replaceFirst "Issuer:".data [] line.data))
  | none => "Unknown Issuer"

/-- `HSMSocketClient.getCertificates` (Unix variant): read every `.crt` file
of every valid softcard (skipping unreadable files), building tagged
certificate entries; a `getSoftCards` failure is caught and returned as a
tagged failure. -/
def getCertificates (env : Env) (kmDataPath : String) : HSMSocketResponse :=
  match getSoftCards env kmDataPath with
  | .error e => { success := false, error := some e }
  | .ok softcards =>
    { success := true,
      certificates := some ((softcards.filter (fun c => c.isValid)).foldr
        (fun card acc =>
          (match card.certificates with
           | none => []
           | some files => files.foldr (fun certFile acc2 =>
               match env.readFile (pathJoin card.path certFile) with
               | .error _ => acc2
               | .ok certData =>
                 { id := card.name ++ ":" ++ certFile,
                   cardName := card.name,
                   keyId := String.mk (replaceFirst ".crt".data [] certFile.data),
                   pemData := certData,
                   subject := extractSubjectFromPEM certData,
                   issuer := extractIssuerFromPEM certData,
                   validFrom := env.nowISO,
                   validTo := env.yearFromNowISO } :: acc2) []) ++ acc) []) }

/-- `HSMSocketClient.signData` (Unix variant): verify the softcard exists and
is valid, then connect and send one SIGN_DATA command; every failure path is
returned as a tagged response. -/
def signData (env : Env) (kmDataPath : String)
    (keyId dataHash cardName passphrase hashAlgorithm : String) : HSMSocketResponse :=
  match getSoftCards env kmDataPath with
  | .error e => { success := false, error := some e }
  | .ok softcards =>
    match softcards.find? (fun c => c.name == cardName && c.isValid) with
    | none =>
      { success := false,
        error := some ("Softcard \x27" ++ cardName ++ "\x27 not found or invalid") }
    | some _ =>
      match env.connect with
      | .error e => { success := false, error := some e }
      | .ok _ =>
        let signMsg : HSMSocketMessage :=
          { command := "SIGN_DATA", cardName := some cardName, keyId := some keyId,
            dataHash := some dataHash, hashAlgorithm := some hashAlgorithm,
            passphrase := some passphrase }
        match env.send signMsg with
        | .error e => { success := false, error := some e }
        | .ok signResponse => signResponse

/-- `response.data || 'fallback'`: JavaScript falsy-or on the untyped data
field (absent or empty-string data falls back). -/
def jsOr (o : Option ResponseData) (d : ResponseData) : ResponseData :=
  match o with
  | none => d
  | some (ResponseData.str s) => if s = "" then d else ResponseData.str s
  | some v => v

/-- `HSMSocketClient.testConnection` (Unix variant): check the socket file
exists (tagged failure if not), connect, send STATUS, and report success with
the response data (or a fixed message); every failure path is tagged. -/
def testConnection (env : Env) (socketPath : String) : HSMSocketResponse :=
  if !(env.access socketPath) then
    { success := false, error := some ("nFast socket file not found: " ++ socketPath) }
  else
    match env.connect with
    | .error e => { success := false, error := some e }
    | .ok _ =>
      match env.send { command := "STATUS" } with
      | .error e => { success := false, error := some e }
      | .ok response =>
        { success := true,
          data := some (jsOr response.data
            (ResponseData.str "nFast HSM connection successful")) }

/-- `HSMSocketClient.getSoftCardDetails`: find the card by name and return
its details; a missing card or a discovery failure is a tagged failure. -/
def getSoftCardDetails (env : Env) (kmDataPath : String) (cardName : String) :
    HSMSocketResponse :=
  match getSoftCards env kmDataPath with
  | .error e => { success := false, error := some e }
  | .ok softcards =>
    match softcards.find? (fun c => c.name == cardName) with
    | none =>
      { success := false,
        error := some ("Softcard \x27" ++ cardName ++ "\x27 not found") }
    | some card =>
      { success := true,
        data := some (ResponseData.cardDetails card.name card.path card.isValid
          (card.certificates.getD [])) }

/-- The response-accumulation loop of `HSMSocketClient.sendCommand`
(Unix variant): chunks arrive in order; after each chunk, if the accumulated
text contains a newline the promise resolves — with the parsed JSON when
`JSON.parse` of the trimmed text succeeds, else with
`{success: true, data: trimmed}`; if the chunks run out before a newline, the
command timeout rejects.  `jsonParse` models `JSON.parse` (an external
primitive). -/
def accumulateResponse (jsonParse : List Char → Option HSMSocketResponse) :
    List (List Char) → List Char → Except String HSMSocketResponse
  | [], _ => .error "HSM command timeout"
  | chunk :: rest, acc =>
    let acc2 := acc ++ chunk
    if acc2.contains '\n' then
      match jsonParse (jsTrim acc2) with
      | some response => .ok response
      | none =>
        .ok { success := true,
              data := some (ResponseData.str (String.mk (jsTrim acc2))) }
    else
      accumulateResponse jsonParse rest acc2

/-- `HSMSocketClient.sendCommand` (Unix variant), given the chunk schedule of
the peer: accumulate from the empty buffer. -/
def sendCommand (jsonParse : List Char → Option HSMSocketResponse)
    (chunks : List (List Char)) : Except String HSMSocketResponse :=
  accumulateResponse jsonParse chunks []

/-- Claim C10: whenever the accumulated data contains a newline terminator
but never parses as JSON, `sendCommand` resolves with `success = true` and
the raw trimmed accumulated text as the data field — it is neither reported
as a failure nor left to time out. -/
theorem sendCommand_garbled_newline_success
    (jsonParse : List Char → Option HSMSocketResponse)
    (chunks : List (List Char)) (acc : List Char)
    (hparse : ∀ s, jsonParse s = none)
    (hnl : (acc ++ chunks.flatten).contains '\n' = true)
    (hne : chunks ≠ []) :
    ∃ k, accumulateResponse jsonParse chunks acc =
      .ok { success := true,
            data := some (ResponseData.str
              (String.mk (jsTrim (acc ++ (chunks.take k).flatten)))) } := by
  induction chunks generalizing acc with
  | nil => exact absurd rfl hne
  | cons chunk rest ih =>
    by_cases h : (acc ++ chunk).contains '\n'
    · refine ⟨1, ?_⟩
      simp only [accumulateResponse, h, if_true, hparse, List.take_succ_cons,
        List.take_zero, List.flatten_cons, List.flatten_nil, List.append_nil]
    · cases rest with
      | nil =>
        exfalso
        simp only [List.flatten_cons, List.flatten_nil, List.append_nil] at hnl
        exact absurd hnl h
      | cons r rs =>
        have hnl2 : ((acc ++ chunk) ++ (r :: rs).flatten).contains '\n' = true := by
          rw [List.append_assoc]
          simpa [List.flatten_cons] using hnl
        obtain ⟨k, hk⟩ := ih (acc ++ chunk) hnl2 (by simp)
        refine ⟨k + 1, ?_⟩
        simp only [accumulateResponse, h, if_false, List.take_succ_cons, List.flatten_cons]
        rw [← List.append_assoc]
        exact hk

/-- Witness for C10: a single garbled newline-terminated chunk resolves with
`success = true` and a string data field. -/
theorem sendCommand_garbled_newline_success_witness :
    ∃ d, sendCommand (fun _ => none) ["garbled\n".data] =
      .ok { success := true, data := some (ResponseData.str d) } := by
  obtain ⟨k, hk⟩ := sendCommand_garbled_newline_success (fun _ => none)
    ["garbled\n".data] [] (fun _ => rfl) (by decide) (by simp)
  exact ⟨_, hk⟩

/-- An environment with a missing kmdata root and no reachable socket. -/
def deadFS : Env where
  access := fun _ => false
  readdirTypes := fun _ => .error "ENOENT"
  readdirNames := fun _ => .error "ENOENT"
  readFile := fun _ => .error "ENOENT"
  nowISO := "2026-01-01T00:00:00.000Z"
  yearFromNowISO := "2027-01-01T00:00:00.000Z"
  connect := .error "HSM socket connection failed: connect ENOENT"
  send := fun _ => .error "HSM socket error: reset"

/-- Claim C8 counterexample: softcard discovery (`getSoftCards`), a public
remote-client operation, propagates a thrown error (`Except.error`) past its
own boundary when the kmdata path is missing, instead of returning a tagged
success/failure result. -/
theorem getSoftCards_throws_counterexample :
    getSoftCards deadFS "/opt/nfast/kmdata/local" =
      .error "Failed to discover softcards: nFast kmdata path not found: /opt/nfast/kmdata/local" :=
  rfl

/-- Claim C8 (amended): every public Unix-variant remote-client operation
EXCEPT `getSoftCards` returns a tagged success/failure response rather than
propagating an exception: a `getSoftCards` failure inside certificate
listing, signing, or softcard details is caught and returned as
`success = false` carrying the thrown message; a missing socket file makes
`testConnection` return a tagged failure; and a connect failure leaves
`signData` and `testConnection` with `success = false` rather than a thrown
error. -/
theorem operations_tagged_failure (env : Env) (kmDataPath socketPath : String)
    (keyId dataHash cardName passphrase hashAlgorithm : String) (e : String) :
    (getSoftCards env kmDataPath = .error e →
        getCertificates env kmDataPath = { success := false, error := some e } ∧
          signData env kmDataPath keyId dataHash cardName passphrase hashAlgorithm =
            { success := false, error := some e } ∧
          getSoftCardDetails env kmDataPath cardName =
            { success := false, error := some e }) ∧
      (env.access socketPath = false →
        testConnection env socketPath =
          { success := false,
            error := some ("nFast socket file not found: " ++ socketPath) }) ∧
      (env.connect = .error e →
        (signData env kmDataPath keyId dataHash cardName passphrase
            hashAlgorithm).success = false ∧
          (testConnection env socketPath).success = false) := by
  refine ⟨fun h => ⟨?_, ?_, ?_⟩, fun h => ?_, fun h => ⟨?_, ?_⟩⟩
  · simp [getCertificates, h]
  · simp [signData, h]
  · simp [getSoftCardDetails, h]
  · simp [testConnection, h]
  · unfold signData
    cases hg : getSoftCards env kmDataPath with
    | error e2 => simp
    | ok cards =>
      cases hf : cards.find? (fun c => c.name == cardName && c.isValid) with
      | none => simp [hf]
      | some card => simp [hf, h]
  · unfold testConnection
    cases ha : env.access socketPath with
    | false => simp
    | true => simp [h]

/-- Witness for C8 (amended) on the dead environment. -/
theorem operations_tagged_failure_witness :
    getCertificates deadFS "/x" =
        { success := false,
          error := some "Failed to discover softcards: nFast kmdata path not found: /x" } ∧
      testConnection deadFS "/sock" =
        { success := false, error := some "nFast socket file not found: /sock" } := by
  have h := operations_tagged_failure deadFS "/x" "/sock" "k" "h" "c" "p" "SHA-256"
    "Failed to discover softcards: nFast kmdata path not found: /x"
  exact ⟨(h.1 rfl).1, h.2.1 rfl⟩

end HSMUnix
